import Mathlib

/-!
Verification of the rotating log-file writer (package rotate).

The definitions below are a shallow embedding of the Go source in
src/unnamed/part_000 (rotate.go).  Go strings are modelled as lists of
characters, machine integers as Int, and the filesystem effects of a
rotation (close / rename / create) as explicit outcome parameters, so that
every branch of the source functions is represented.  Stateful methods of
File become functions from an explicit state record to a result.
-/

/-- A Go string, modelled as a list of characters. -/
abbrev GoStr := List Char

/-- Go bytewise string comparison, s < t (used by sort.Strings and by the
sweep's lexical age comparison).  Character order coincides with byte order
for the ASCII names involved. -/
def goStrLt : GoStr → GoStr → Bool
  | [], [] => false
  | [], _ :: _ => true
  | _ :: _, [] => false
  | a :: as, b :: bs => if a < b then true else if b < a then false else goStrLt as bs

/-- Go string comparison s >= t, as used in cleanBackups' IndexFunc. -/
def goStrGe (a b : GoStr) : Bool := !(goStrLt a b)

/-- Insertion step of the model of sort.Strings. -/
def goInsert (x : GoStr) : List GoStr → List GoStr
  | [] => [x]
  | y :: ys => if goStrLt y x then y :: goInsert x ys else x :: y :: ys

/-- Model of sort.Strings: sort ascending by Go string order.
sort.Strings is specified by sortedness and permutation; insertion sort
realises that specification. -/
def goSort : List GoStr → List GoStr
  | [] => []
  | x :: xs => goInsert x (goSort xs)

/-- strings.HasPrefix s p : s starts with p. -/
def goHasPre : GoStr → GoStr → Bool
  | _, [] => true
  | [], _ :: _ => false
  | c :: s, d :: p => (d == c) && goHasPre s p

/-- strings.HasSuffix s p : s ends with p. -/
def goHasSuf (s p : GoStr) : Bool := goHasPre s.reverse p.reverse

/-! ## Configuration (type Option of the source, here RotateOption) -/

/-- Embeds the constant defaultBackups = 30. -/
def defaultBackups : Int := 30

/-- Embeds WriteMode = 0o200 (owner-write permission bit). -/
def WriteMode : Nat := 128

/-- Embeds defaultModePerm = 0o644. -/
def defaultModePerm : Nat := 420

/-- Embeds defaultDuration = 24h, in nanoseconds (Go time.Duration). -/
def defaultDuration : Int := 86400000000000

/-- Embeds defaultMaxAge = 30 * 24h, in nanoseconds. -/
def defaultMaxAge : Int := 2592000000000000

/-- Embeds defaultMaxSize = 1 <<< 28 bytes. -/
def defaultMaxSize : Int := 268435456

/-- Embeds defaultBackupTimeFormat = "2006-01-02:15-04-05.0000". -/
def defaultBackupTimeFormat : GoStr := ("2006-01-02:15-04-05.0000").toList

/-- Embeds the source's Option struct (named RotateOption to avoid the Lean
builtin).  Durations are nanoseconds, sizes bytes. -/
structure RotateOption where
  Duration : Int
  MaxSize : Int
  Backups : Int
  CleanupBlock : Bool
  MaxAge : Int
  ModePerm : Nat
  BackupTimeFormat : GoStr
  deriving DecidableEq, Repr

/-- Embeds getDefaultOption. -/
def getDefaultOption : RotateOption :=
  { Duration := defaultDuration
    MaxSize := defaultMaxSize
    Backups := defaultBackups
    CleanupBlock := false
    MaxAge := defaultMaxAge
    ModePerm := defaultModePerm
    BackupTimeFormat := [] }

/-- Embeds (*Option).validate.  Backups = 0 is replaced by defaultBackups,
an empty time format by the default format; a nonzero ModePerm lacking the
owner-write bit is rejected (none = ModePermissionError), a zero ModePerm is
replaced by defaultModePerm. -/
def validate (o : RotateOption) : Option RotateOption :=
  let o1 := if o.Backups = 0 then { o with Backups := defaultBackups } else o
  let o2 := if o1.BackupTimeFormat = [] then
      { o1 with BackupTimeFormat := defaultBackupTimeFormat } else o1
  if o2.ModePerm ≠ 0 ∧ o2.ModePerm &&& WriteMode = 0 then none
  else some (if o2.ModePerm = 0 then { o2 with ModePerm := defaultModePerm } else o2)

/-- Embeds SetBackups: stores the number unconditionally (a zero only emits
a warning on the side channel). -/
def SetBackups (o : RotateOption) (number : Int) : RotateOption :=
  { o with Backups := number }

/-- Embeds SetMaxAge: stores the age unconditionally. -/
def SetMaxAge (o : RotateOption) (age : Int) : RotateOption :=
  { o with MaxAge := age }

/-! ## File state

The mutable state of a File that the claims are about: whether a handle is
open (recorder is a nil interface when false), the used byte counter, the
content at the target path, and the contents of the backup files produced
by renames.  The mutex is not modelled: every claim is about the serialized
behaviour its critical section performs. -/

/-- Mutable state of a File: recorder (false = nil interface), the used
counter, the bytes currently at the target path, and the archived backup
contents in creation order. -/
structure RotSt where
  recorder : Bool
  used : Int
  activeContent : GoStr
  archived : List GoStr
  deriving DecidableEq, Repr

/-- Embeds the rotation mode bit SizeRotate = 1 <<< 0. -/
def SizeRotate : Nat := 1

/-- Embeds the rotation mode bit DurationRotate = 1 <<< 1. -/
def DurationRotate : Nat := 2

/-- The File object as produced by NewFile: validated option, mode bitset,
and the initial mutable state (no handle open, zero used). -/
structure FileModel where
  option : RotateOption
  mode : Nat
  st : RotSt
  deriving DecidableEq, Repr

/-- Result of NewFile. -/
inductive NewFileRes where
  | ok (f : FileModel)
  | errNotSpecifyFile
  | errModePermission
  deriving DecidableEq, Repr

/-- Embeds NewFile(file, option).  An empty path is NotSpecifyFileError; a
nil option is replaced by getDefaultOption; validate may reject the
permissions; the mode bitset is DurationRotate for Duration > 0 plus
SizeRotate for MaxSize > 0.  The commented-out matchRotate call of the
source leaves err nil, so no further error is possible: in particular a
configuration enabling neither rotation mode is accepted with mode = 0. -/
def NewFile (file : GoStr) (opt : Option RotateOption) : NewFileRes :=
  if file = [] then .errNotSpecifyFile
  else
    let o := opt.getD getDefaultOption
    match validate o with
    | none => .errModePermission
    | some o2 =>
      let mode := (if 0 < o2.Duration then DurationRotate else 0) |||
        (if 0 < o2.MaxSize then SizeRotate else 0)
      .ok { option := o2, mode := mode,
            st := { recorder := false, used := 0, activeContent := [], archived := [] } }

/-- Embeds (*File).check: if no recorder is open, open the target with
O_CREATE, O_WRONLY, O_APPEND (makeOk is the outcome of paths.MakeFile) and
set used to 0; otherwise leave the state unchanged.  Appending preserves
any existing content at the path.  Returns none on a MakeFile error. -/
def check (st : RotSt) (makeOk : Bool) : Option RotSt :=
  if st.recorder = false then
    if makeOk then some { st with recorder := true, used := 0 } else none
  else some st

/-! ## Rotation -/

/-- Outcome of the os.Rename of the active file to its backup name. -/
inductive RenameRes where
  | renameOk
  | srcMissing
  | otherErr
  deriving DecidableEq, Repr

/-- Result of a rotate call. -/
inductive RotRes where
  | ok (st : RotSt)
  | closeFailed
  | makeFailed
  deriving DecidableEq, Repr

/-- Embeds (*File).rotate.  closeOk and makeOk are the outcomes of the
close of the old recorder and of paths.MakeFile for the fresh file; ren is
the outcome of the os.Rename.  The backup-name collision check
(paths.IsExisted, a retry with a fresh name) is modelled as finding no
collision, which is the case in every claim's scenario.  Per source:

  * a close failure aborts the roll;
  * with Backups ≠ 0 the active file is renamed to the backup name; if the
    rename fails with IsNotExist the function warns and returns nil at once
    (no fresh file is opened); any other rename error is not returned and
    execution falls through;
  * the fresh file is opened with O_TRUNC (destroying the content at the
    target when it was not renamed away) and adopted via setFD, which
    resets used to 0 (the stat of the just-truncated file);
  * the CleanBackups trigger that follows when Backups > 0 is modelled
    separately (cleanBackupsModel / CleanBackupsTrigger below). -/
def rotateModel (Backups : Int) (closeOk makeOk : Bool) (ren : RenameRes)
    (st : RotSt) : RotRes :=
  if closeOk = false then .closeFailed
  else
    let st1 : RotSt := { st with recorder := false, used := 0 }
    if Backups ≠ 0 then
      match ren with
      | .srcMissing => .ok st1
      | .renameOk =>
        let st2 : RotSt :=
          { st1 with
            archived := st1.archived ++ [st1.activeContent]
            activeContent := [] }
        if makeOk then .ok { st2 with recorder := true, used := 0, activeContent := [] }
        else .makeFailed
      | .otherErr =>
        if makeOk then .ok { st1 with recorder := true, used := 0, activeContent := [] }
        else .makeFailed
    else
      if makeOk then .ok { st1 with recorder := true, used := 0, activeContent := [] }
      else .makeFailed

/-- Result of a Write call. -/
inductive WriteRes where
  | ok (n : Nat) (st : RotSt)
  | panicNilRecorder
  | rotateCloseFailed (n : Nat)
  | rotateMakeFailed (n : Nat)
  deriving DecidableEq, Repr

/-- Embeds (*File).Write on the happy write path (the underlying os write
succeeds in full).  The method immediately calls recorder.Write; when no
handle is open the recorder is a nil interface and the call faults
(panicNilRecorder) — Write contains no call to check.  On success used is
increased by n, and if used now exceeds MaxSize, rotate runs at once
(regardless of the mode bitset). -/
def WriteModel (MaxSize Backups : Int) (closeOk makeOk : Bool) (ren : RenameRes)
    (st : RotSt) (b : GoStr) : WriteRes :=
  if st.recorder = false then .panicNilRecorder
  else
    let st1 : RotSt :=
      { st with
        activeContent := st.activeContent ++ b
        used := st.used + (b.length : Int) }
    if MaxSize < st1.used then
      match rotateModel Backups closeOk makeOk ren st1 with
      | .ok st2 => .ok b.length st2
      | .closeFailed => .rotateCloseFailed b.length
      | .makeFailed => .rotateMakeFailed b.length
    else .ok b.length st1

/-- Runs WriteModel over a sequence of payloads on the happy filesystem
path (close, rename and create all succeed); none when any write does not
return ok. -/
def writeAll (MaxSize Backups : Int) (st : RotSt) : List GoStr → Option RotSt
  | [] => some st
  | b :: bs =>
    match WriteModel MaxSize Backups true true .renameOk st b with
    | .ok _ st2 => writeAll MaxSize Backups st2 bs
    | _ => none

/-! ## Backup naming and the retention sweep -/

/-- Embeds (*File).NextBackupFile: rotatingFilePrefix ++ formatted time ++
salt ++ extension.  timeStr stands for now.Format(BackupTimeFormat) and
salt for lib.RandString(saultWidth). -/
def NextBackupFileModel (pfx timeStr salt ext : GoStr) : GoStr :=
  pfx ++ timeStr ++ salt ++ ext

/-- Embeds (*File).IsBackupFile: strings.HasPrefix(file, rotatingFilePrefix)
and strings.HasSuffix(file, ext).  A pure function of the name. -/
def IsBackupFileModel (pfx ext name : GoStr) : Bool :=
  goHasPre name pfx && goHasSuf name ext

/-- Environment of one retention sweep: the directory listing (file names,
directories excluded), the fields of the File the sweep reads
(rotatingFilePrefix, ext, option.BackupTimeFormat as fmtStr, Backups,
MaxAge), the current time, and the formatted-time and salt produced inside
the NextBackupFile call for the age limit. -/
structure CleanEnv where
  listing : List GoStr
  pfx : GoStr
  ext : GoStr
  fmtStr : GoStr
  salt : GoStr
  formatTime : Int → GoStr
  now : Int
  MaxAge : Int
  Backups : Int

/-- Outcome of one sweep: the list of deleted backup names (deletion of
each never aborts the sweep: per-file removal errors are warnings), or a
runtime fault from a slice expression s[:width] with width > len(s). -/
inductive CleanOutcome where
  | ok (deleted : List GoStr)
  | fault
  deriving DecidableEq, Repr

/-- Embeds the slices.IndexFunc call of cleanBackups, with the Go slicing
semantics of the predicate s[:width] >= limit made explicit: evaluating the
predicate on an s shorter than width is a runtime fault (none).  Otherwise
some none when no entry matches (Go result -1), some (some i) for the
first matching index. -/
def ageCutIdx (width : Nat) (limit : GoStr) : List GoStr → Option (Option Nat)
  | [] => some none
  | s :: rest =>
    if s.length < width then none
    else if goStrGe (s.take width) limit then some (some 0)
    else
      match ageCutIdx width limit rest with
      | none => none
      | some none => some none
      | some (some i) => some (some (i + 1))

/-- Embeds (*File).cleanBackups (the sweep body).  BackupFiles is the
listing filtered by IsBackupFile.  With no backups the sweep is a no-op;
with Backups = 0 every matched backup is deleted (before any sort).
Otherwise the matches are sorted, a count cut deleteIndex is computed for
Backups > 0, and if MaxAge > 0 an age cut OVERWRITES deleteIndex: the
first index whose name truncated to width = len(pfx) + len(fmtStr) is
lexically >= the corresponding truncation of the backup name generated for
now - MaxAge (all entries when none matches).  The slice expressions
produce a fault when the sliced string is shorter than width.  Finally
backups[:deleteIndex] are deleted. -/
def cleanBackupsModel (env : CleanEnv) : CleanOutcome :=
  let backups := env.listing.filter (fun n => IsBackupFileModel env.pfx env.ext n)
  if backups.length = 0 then .ok []
  else if env.Backups = 0 then .ok backups
  else
    let sorted := goSort backups
    let left : Int := (backups.length : Int) - env.Backups
    let d0 : Int := if 0 < env.Backups ∧ 0 < left then left else 0
    if 0 < env.MaxAge then
      let width := env.pfx.length + env.fmtStr.length
      let nm := NextBackupFileModel env.pfx (env.formatTime (env.now - env.MaxAge))
        env.salt env.ext
      if width ≤ nm.length then
        match ageCutIdx width (nm.take width) sorted with
        | none => .fault
        | some none => .ok sorted
        | some (some i) => .ok (sorted.take i)
      else .fault
    else .ok (sorted.take d0.toNat)

/-- Observable result of one CleanBackups trigger call: whether an error is
returned to the caller, the cleaning flag after the triggered work (if any)
has completed, and how many sweep executions the call caused. -/
structure TriggerOut where
  returnsError : Bool
  cleaningAfter : Bool
  sweepsRun : Nat
  deriving DecidableEq, Repr

/-- Embeds (*File).CleanBackups, the single-flight trigger.  cleaning is
the atomic flag at the call; sweepFails the outcome of the sweep body.  If
the CompareAndSwap(false, true) fails (flag already true) the call returns
nil at once and runs nothing.  Otherwise the sweep runs — synchronously
when CleanupBlock, returning its error, or on a detached goroutine whose
error is only warned — and a defer resets the flag to false on completion
in either mode, whatever the sweep's outcome. -/
def CleanBackupsTrigger (cleaning : Bool) (block : Bool) (sweepFails : Bool) :
    TriggerOut :=
  if cleaning then { returnsError := false, cleaningAfter := true, sweepsRun := 0 }
  else if block then { returnsError := sweepFails, cleaningAfter := false, sweepsRun := 1 }
  else { returnsError := false, cleaningAfter := false, sweepsRun := 1 }

/-! ## Spec-side definitions (for refinement comparison only)

These follow the words of the specification, not the source; they are used
to state where the source deviates from the spec. -/

/-- Modelled from the spec: the count-based candidate set size, "the oldest
max(0, count - maxBackups) entries" when maxBackups > 0. -/
def specCountCut (Backups : Int) (count : Nat) : Nat :=
  if 0 < Backups then ((count : Int) - Backups).toNat else 0

/-- Modelled from the spec: the age-based candidate set size, "the first
entry whose name is lexically >= that synthetic prefix; every entry before
that point ... If no entry matches (all older), all are candidates". -/
def specAgeCut (width : Nat) (limit : GoStr) (sorted : List GoStr) : Nat :=
  match sorted.findIdx? (fun s => goStrGe (s.take width) limit) with
  | some i => i
  | none => sorted.length

/-- Modelled from the spec: "the deletion set actually used is the MORE
AGGRESSIVE of the two cuts (the policy that would delete more files
wins)" — the max of the count cut and the age cut on the sorted matches. -/
def specAggressiveCut (env : CleanEnv) : Nat :=
  let backups := env.listing.filter (fun n => IsBackupFileModel env.pfx env.ext n)
  let sorted := goSort backups
  let width := env.pfx.length + env.fmtStr.length
  let nm := NextBackupFileModel env.pfx (env.formatTime (env.now - env.MaxAge))
    env.salt env.ext
  max (specCountCut env.Backups backups.length)
    (if 0 < env.MaxAge then specAgeCut width (nm.take width) sorted else 0)



/-! ## Concrete instances used by the claim theorems -/

/-- A state with an open recorder and empty active file, as produced by the
first successful check on a fresh File. -/
def stOpen : RotSt := { recorder := true, used := 0, activeContent := [], archived := [] }

/-- The five-byte payload "hello" of the size-trigger scenario. -/
def w5 : GoStr := ("hello").toList

/-- The seven-byte payload of the size-trigger scenario. -/
def w7 : GoStr := ("world!\n").toList

/-- The one-byte payload of the size-trigger scenario. -/
def w1 : GoStr := ("1").toList

/-- Sweep environment with both limits configured: three matched backups,
all newer than the age limit (limit name is lexically below every entry),
and a count limit of 1 that would on its own delete the two oldest. -/
def envC1 : CleanEnv :=
  { listing := [['b','5','x'], ['b','6','x'], ['b','7','x']]
    pfx := ['b']
    ext := []
    fmtStr := ['t']
    salt := ['s','s','s','s','s','s']
    formatTime := fun _ => ['4']
    now := 5
    MaxAge := 1
    Backups := 1 }

/-- The Option passed at construction in the zero-backups scenario:
Backups = 0 requested, size rotation enabled. -/
def optBk0 : RotateOption :=
  { Duration := 0, MaxSize := 1, Backups := 0, CleanupBlock := false, MaxAge := 0,
    ModePerm := 0, BackupTimeFormat := [] }

/-- What validate actually makes of optBk0: the zero backup count is
silently replaced by the default 30. -/
def optBk0v : RotateOption :=
  { optBk0 with
    Backups := 30
    ModePerm := 420
    BackupTimeFormat := defaultBackupTimeFormat }

/-- Sweep environment of the File constructed from optBk0 (so with the
validated Backups = 30 and MaxAge = 0), with one matched backup present. -/
def envC2 : CleanEnv :=
  { listing := [['b','q']]
    pfx := ['b']
    ext := []
    fmtStr := defaultBackupTimeFormat
    salt := ['s','s','s','s','s','s']
    formatTime := fun _ => []
    now := 0
    MaxAge := 0
    Backups := 30 }

/-- The File produced by NewFile with a nil option (all defaults). -/
def fileC3 : FileModel :=
  { option := { Duration := 86400000000000, MaxSize := 268435456, Backups := 30,
                CleanupBlock := false, MaxAge := 2592000000000000, ModePerm := 420,
                BackupTimeFormat := defaultBackupTimeFormat }
    mode := 3
    st := { recorder := false, used := 0, activeContent := [], archived := [] } }

/-- The all-zero Option of the construction test (neither rotation mode
enabled). -/
def optEmpty : RotateOption :=
  { Duration := 0, MaxSize := 0, Backups := 0, CleanupBlock := false, MaxAge := 0,
    ModePerm := 0, BackupTimeFormat := [] }

/-- The File that NewFile actually returns for optEmpty: accepted, with an
empty rotation-mode bitset. -/
def fileC4 : FileModel :=
  { option := { Duration := 0, MaxSize := 0, Backups := 30, CleanupBlock := false,
                MaxAge := 0, ModePerm := 420,
                BackupTimeFormat := defaultBackupTimeFormat }
    mode := 0
    st := { recorder := false, used := 0, activeContent := [], archived := [] } }

/-- A mid-roll state: open recorder, five bytes used, content at the
target path. -/
def st5 : RotSt := { recorder := true, used := 5, activeContent := ['h','i'], archived := [] }

/-- Duration-only configuration: rotationInterval = 1s, no size limit. -/
def optDur : RotateOption :=
  { Duration := 1000000000, MaxSize := 0, Backups := 0, CleanupBlock := false,
    MaxAge := 0, ModePerm := 0, BackupTimeFormat := [] }

/-- The File produced by NewFile from optDur: duration mode only,
MaxSize = 0. -/
def fileC7 : FileModel :=
  { option := { Duration := 1000000000, MaxSize := 0, Backups := 30,
                CleanupBlock := false, MaxAge := 0, ModePerm := 420,
                BackupTimeFormat := defaultBackupTimeFormat }
    mode := 2
    st := { recorder := false, used := 0, activeContent := [], archived := [] } }

/-- Sweep environment with an empty extension and a matched backup name
("bx") shorter than the slice width len(pfx) + len(fmtStr) = 4. -/
def envC10 : CleanEnv :=
  { listing := [['b','x']]
    pfx := ['b']
    ext := []
    fmtStr := ['t','t','t']
    salt := ['s','s','s','s','s','s']
    formatTime := fun _ => ['t','t','t']
    now := 5
    MaxAge := 1
    Backups := 5 }

/-! ## Helper lemmas -/

/-- goHasPre decides List.IsPrefix (strings.HasPrefix is the prefix
relation). -/
theorem goHasPre_iff (s p : GoStr) : goHasPre s p = true ↔ p <+: s := by
  induction s generalizing p with
  | nil =>
    cases p with
    | nil => simp [goHasPre]
    | cons d q => simp [goHasPre]
  | cons c s ih =>
    cases p with
    | nil => simp [goHasPre]
    | cons d q =>
      simp [goHasPre, List.cons_prefix_cons, ih, Bool.and_eq_true, beq_iff_eq]

/-- goHasSuf decides List.IsSuffix (strings.HasSuffix is the suffix
relation). -/
theorem goHasSuf_iff (s p : GoStr) : goHasSuf s p = true ↔ p <:+ s := by
  rw [goHasSuf, goHasPre_iff, List.reverse_prefix]

/-- Membership in the result of goInsert. -/
theorem mem_goInsert {a x : GoStr} {l : List GoStr} (h : a ∈ goInsert x l) :
    a = x ∨ a ∈ l := by
  induction l with
  | nil =>
    rw [goInsert] at h
    rcases List.mem_singleton.mp h with h1
    exact Or.inl h1
  | cons y ys ih =>
    rw [goInsert] at h
    split at h
    · rcases List.mem_cons.mp h with h1 | h2
      · exact Or.inr (h1 ▸ List.mem_cons_self y ys)
      · rcases ih h2 with h3 | h4
        · exact Or.inl h3
        · exact Or.inr (List.mem_cons_of_mem y h4)
    · rcases List.mem_cons.mp h with h1 | h2
      · exact Or.inl h1
      · exact Or.inr h2

/-- goSort only rearranges: its members come from the input list. -/
theorem mem_goSort {a : GoStr} {l : List GoStr} (h : a ∈ goSort l) : a ∈ l := by
  induction l with
  | nil => simp [goSort] at h
  | cons x xs ih =>
    rw [goSort] at h
    rcases mem_goInsert h with h1 | h2
    · exact h1 ▸ List.mem_cons_self x xs
    · exact List.mem_cons_of_mem x (ih h2)

/-- The age-cut search cannot fault when every entry is at least width
characters long. -/
theorem ageCutIdx_total (width : Nat) (limit : GoStr) (l : List GoStr)
    (h : ∀ s ∈ l, width ≤ s.length) : ageCutIdx width limit l ≠ none := by
  induction l with
  | nil => simp [ageCutIdx]
  | cons s rest ih =>
    have hs : width ≤ s.length := h s (List.mem_cons_self s rest)
    have hrest : ∀ t ∈ rest, width ≤ t.length :=
      fun t ht => h t (List.mem_cons_of_mem s ht)
    rw [ageCutIdx, if_neg (by omega : ¬ s.length < width)]
    split
    · simp
    · have := ih hrest
      cases heq : ageCutIdx width limit rest with
      | none => exact absurd heq this
      | some v => cases v <;> simp [heq]

/-! ## Claim theorems -/

/-- C8: the cleanup trigger is single-flight.  In any state where the
atomic cleaning flag is already true, a CleanBackups call runs no sweep and
returns success, in both blocking modes and for either sweep outcome; and
whenever a call does acquire the flag and runs the sweep, the flag is reset
to false on completion whether the sweep succeeds or fails, and exactly one
sweep execution is caused. -/
theorem cleanBackups_single_flight : ∀ block sweepFails : Bool,
    CleanBackupsTrigger true block sweepFails =
      { returnsError := false, cleaningAfter := true, sweepsRun := 0 } ∧
    (CleanBackupsTrigger false block sweepFails).cleaningAfter = false ∧
    (CleanBackupsTrigger false block sweepFails).sweepsRun = 1 := by decide

/-- C9: backup naming round-trips through the recognition predicate.  For
every rotating-file prefix, formatted timestamp, salt and extension, the
name NextBackupFile produces is recognized by IsBackupFile; and a filename
is recognized as a backup exactly when it starts with the prefix and ends
with the extension — a pure predicate on the name. -/
theorem backup_naming_roundtrip : ∀ pfx timeStr salt extn name : GoStr,
    IsBackupFileModel pfx extn (NextBackupFileModel pfx timeStr salt extn) = true ∧
    (IsBackupFileModel pfx extn name = true ↔ (pfx <+: name ∧ extn <:+ name)) := by
  intro pfx timeStr salt extn name
  constructor
  · rw [IsBackupFileModel, Bool.and_eq_true, goHasPre_iff, goHasSuf_iff]
    constructor
    · exact ⟨timeStr ++ salt ++ extn, by simp [NextBackupFileModel]⟩
    · exact ⟨pfx ++ timeStr ++ salt, by simp [NextBackupFileModel]⟩
  · rw [IsBackupFileModel, Bool.and_eq_true, goHasPre_iff, goHasSuf_iff]

/-- C1 counterexample: the claim that with both limits configured the more
aggressive of the count cut and age cut governs is false.  In envC1 the
count limit (maxBackups = 1 over 3 backups) would delete 2 files and the
age cut none, so the claimed deletion count is max 2 0 = 2; the sweep
actually deletes nothing, because the age computation overwrites the
count-based deleteIndex. -/
theorem age_cut_not_more_aggressive :
    cleanBackupsModel envC1 = CleanOutcome.ok [] ∧ specAggressiveCut envC1 = 2 := by
  decide

/-- C1 amended: when both a positive count limit and a positive age limit
are configured, the age-based cut alone governs the sweep — the count cut
is overwritten, so the outcome is independent of the value of the positive
count limit. -/
theorem age_cut_overrides_count_cut (env : CleanEnv) (k q : Int)
    (hk : 0 < k) (hq : 0 < q) (hA : 0 < env.MaxAge) :
    cleanBackupsModel { env with Backups := k } =
      cleanBackupsModel { env with Backups := q } := by
  have hk0 : ¬ (k = 0) := by omega
  have hq0 : ¬ (q = 0) := by omega
  unfold cleanBackupsModel
  by_cases h0 :
      (env.listing.filter (fun n => IsBackupFileModel env.pfx env.ext n)).length = 0
  · simp [h0]
  · simp [h0, hk0, hq0, hA]

/-- C1 amended, witness: instantiation at envC1 with count limits 1 and 2. -/
theorem age_cut_overrides_count_cut_witness :
    cleanBackupsModel { envC1 with Backups := 1 } =
      cleanBackupsModel { envC1 with Backups := 2 } :=
  age_cut_overrides_count_cut envC1 1 2 (by decide) (by decide) (by decide)

/-- C2 counterexample: the claim fails for the construction path.  A policy
constructed with maxBackups = 0 does not retain the zero: validate replaces
it with the default 30, and a sweep of the resulting File with one backup
present deletes nothing and leaves the backup behind, instead of deleting
all backups. -/
theorem zero_backups_at_construction_refuted :
    NewFile (['t']) (some optBk0) =
      NewFileRes.ok { option := optBk0v, mode := 1,
                      st := { recorder := false, used := 0, activeContent := [],
                              archived := [] } } ∧
    optBk0.Backups = 0 ∧ optBk0v.Backups = 30 ∧
    cleanBackupsModel envC2 = CleanOutcome.ok [] := by decide

/-- C2 amended: a zero backup count is only attainable through the
SetBackups setter (construction silently replaces it with the default 30);
for every File whose live policy carries the setter-stored value 0, a sweep
deletes every matched backup and leaves none behind, for any prior backup
count including zero. -/
theorem zero_backups_via_setter_deletes_all (env : CleanEnv) (o : RotateOption) :
    cleanBackupsModel { env with Backups := (SetBackups o 0).Backups } =
      CleanOutcome.ok
        (env.listing.filter (fun n => IsBackupFileModel env.pfx env.ext n)) := by
  have hz : (SetBackups o 0).Backups = 0 := rfl
  rw [hz]
  unfold cleanBackupsModel
  by_cases h0 :
      (env.listing.filter (fun n => IsBackupFileModel env.pfx env.ext n)).length = 0
  · simp only [h0, if_pos]
    rw [List.length_eq_zero.mp h0]
  · simp [h0]

/-- C5 counterexample: at a concrete mid-roll state, a rename failing with
IsNotExist makes rotate return success immediately WITHOUT opening a fresh
active file (the recorder stays nil), and a rename failing for any other
cause is silently dropped: rotate returns success and proceeds, surfacing
no error. -/
theorem rotate_rename_failure_refuted :
    rotateModel 30 true true RenameRes.srcMissing st5 =
      RotRes.ok { recorder := false, used := 0, activeContent := ['h','i'],
                  archived := [] } ∧
    rotateModel 30 true true RenameRes.otherErr st5 =
      RotRes.ok { recorder := true, used := 0, activeContent := [], archived := [] } := by
  decide

/-- C5 amended: for every roll with backups enabled whose close and create
steps succeed, a rename failure with cause "source missing" is downgraded
to a warning and the roll returns success without opening a fresh active
file, leaving no open recorder; a rename failure of any other cause is
silently discarded and the roll proceeds to truncate and open a fresh
active file, surfacing no error. -/
theorem rotate_rename_failure_behaviour (B : Int) (st : RotSt) (hB : B ≠ 0) :
    rotateModel B true true RenameRes.srcMissing st =
      RotRes.ok { st with recorder := false, used := 0 } ∧
    rotateModel B true true RenameRes.otherErr st =
      RotRes.ok { st with recorder := true, used := 0, activeContent := [] } := by
  unfold rotateModel
  simp [hB]

/-- C5 amended, witness: instantiation at Backups = 30 and the mid-roll
state st5. -/
theorem rotate_rename_failure_behaviour_witness :
    rotateModel 30 true true RenameRes.srcMissing st5 =
      RotRes.ok { st5 with recorder := false, used := 0 } ∧
    rotateModel 30 true true RenameRes.otherErr st5 =
      RotRes.ok { st5 with recorder := true, used := 0, activeContent := [] } :=
  rotate_rename_failure_behaviour 30 st5 (by decide)

/-- C3: refuted by the source, in agreement with the spec and the package's
own tests (TestWriteStringAndWrite, TestSizeRotate write immediately after
NewFile and require success).  Write contains no lazy-open step: it calls
recorder.Write directly, and on the File returned by NewFile the recorder
is a nil interface, so the first write faults instead of creating the file.
The lazy-open logic exists in (*File).check — which would open the target
and succeed — but Write never invokes it. -/
theorem write_on_fresh_file_faults :
    NewFile (("t.r").toList) none = NewFileRes.ok fileC3 ∧
    WriteModel fileC3.option.MaxSize fileC3.option.Backups true true
      RenameRes.renameOk fileC3.st w5 = WriteRes.panicNilRecorder ∧
    check fileC3.st true = some { fileC3.st with recorder := true, used := 0 } := by
  decide

/-- C4: refuted by the source, in agreement with the spec and the package's
own test (TestNewFile, subtest "empty option", expects NotRotateError).
NewFile does return an error for an empty path, but it accepts a policy
that enables neither size-based nor duration-based rotation: with the
all-zero option it returns success and a File whose rotation-mode bitset
is empty (the matchRotate check is commented out in the source). -/
theorem newFile_accepts_no_rotation_mode :
    NewFile [] none = NewFileRes.errNotSpecifyFile ∧
    NewFile (['t']) (some optEmpty) = NewFileRes.ok fileC4 ∧
    fileC4.mode = 0 := by decide

/-- C6: refuted by the source, in agreement with the spec and the package's
own test (TestSizeRotate requires Used() = 12 and no backup after the
second write).  With maxSizeBytes = 10, writing 5 then 7 bytes makes the
rotation run DURING the second (over-threshold) write: the archived backup
contains all 12 bytes including the over-threshold ones, and bytesUsed is
reset to 0 rather than equalling the size of the triggering write.  After
the third 1-byte write the end state (one backup, bytesUsed = 1)
coincidentally matches the claim, but the over-threshold bytes are in the
archived file, not the new one. -/
theorem size_rotation_during_triggering_write :
    writeAll 10 30 stOpen [w5, w7] =
      some { recorder := true, used := 0, activeContent := [],
             archived := [w5 ++ w7] } ∧
    writeAll 10 30 stOpen [w5, w7, w1] =
      some { recorder := true, used := 1, activeContent := w1,
             archived := [w5 ++ w7] } := by decide

/-- C7: refuted by the source, in agreement with the spec and the package's
own test (TestDurationRotate requires no backup after the first write and
exactly one after a write following a sleep past the interval).  With a
duration-only policy MaxSize stays 0, and Write compares used against
MaxSize without consulting the mode bitset or the ticker, so every
nonempty write triggers a rotation: one backup already exists after the
first write and two after the second, independent of any elapsed time —
no code path performs time-based rotation. -/
theorem duration_config_rotates_every_write :
    NewFile (['t']) (some optDur) = NewFileRes.ok fileC7 ∧
    fileC7.mode = DurationRotate ∧
    writeAll fileC7.option.MaxSize fileC7.option.Backups stOpen [w5] =
      some { recorder := true, used := 0, activeContent := [], archived := [w5] } ∧
    writeAll fileC7.option.MaxSize fileC7.option.Backups stOpen [w5, w1] =
      some { recorder := true, used := 0, activeContent := [],
             archived := [w5, w1] } := by decide

/-- C10: the age-based cut of cleanBackups slices every matched backup name
to width = len(rotatingFilePrefix) + len(BackupTimeFormat) characters, so
the sweep is total only under the unstated precondition that every filename
passing the backup predicate is at least width characters long (and that
the generated limit name is, too); under that precondition no sweep
faults.  The precondition is not implied by the predicate: with an empty
extension the name "bx" is recognized as a backup of prefix "b", yet the
sweep on envC10 (width 4) faults with a slice out of range instead of
skipping or retaining the file. -/
theorem age_cut_slice_length_precondition (env : CleanEnv)
    (h1 : ∀ n ∈ env.listing, IsBackupFileModel env.pfx env.ext n = true →
      env.pfx.length + env.fmtStr.length ≤ n.length)
    (h2 : env.pfx.length + env.fmtStr.length ≤
      (NextBackupFileModel env.pfx (env.formatTime (env.now - env.MaxAge))
        env.salt env.ext).length) :
    cleanBackupsModel env ≠ CleanOutcome.fault ∧
    IsBackupFileModel (['b']) [] (['b','x']) = true ∧
    cleanBackupsModel envC10 = CleanOutcome.fault := by
  refine ⟨?_, by decide, by decide⟩
  have hsorted : ∀ s ∈ goSort (env.listing.filter
      (fun n => IsBackupFileModel env.pfx env.ext n)),
      env.pfx.length + env.fmtStr.length ≤ s.length := by
    intro s hs
    have hf := List.mem_filter.mp (mem_goSort hs)
    exact h1 s hf.1 hf.2
  have htot := ageCutIdx_total (env.pfx.length + env.fmtStr.length)
    ((NextBackupFileModel env.pfx (env.formatTime (env.now - env.MaxAge))
      env.salt env.ext).take (env.pfx.length + env.fmtStr.length)) _ hsorted
  intro hc
  simp only [cleanBackupsModel] at hc
  split at hc
  case isTrue => simp at hc
  case isFalse =>
    split at hc
    case isTrue => simp at hc
    case isFalse =>
      split at hc
      case isFalse => simp at hc
      case isTrue =>
        split at hc
        case h_1 heq => exact absurd heq htot
        case h_2 heq => simp at hc
        case h_3 heq => simp at hc

/-- C10 witness: the totality half instantiated at a concrete sweep
environment whose matched names all meet the width bound. -/
theorem age_cut_slice_length_precondition_witness :
    cleanBackupsModel envC1 ≠ CleanOutcome.fault ∧
    IsBackupFileModel (['b']) [] (['b','x']) = true ∧
    cleanBackupsModel envC10 = CleanOutcome.fault :=
  age_cut_slice_length_precondition envC1 (by decide) (by decide)
